import Mathlib

/-!
Shallow embedding of the gophermon repository (trainer.go, locations.go,
mapsql.go) and proofs about its specification.

Conventions of the embedding:
* Go float64 values are modelled as real numbers (ℝ).
* Go int values are modelled as ℤ (or ℕ where the source guarantees
  non-negativity).
* External collaborators (the golang-geo library, the Google elevation
  HTTP API, the pgoapi session, the MySQL store, the rand source) are
  modelled as explicit oracle parameters; the code of this repository is
  translated statement by statement around them.
* Go code that panics (index out of range) is modelled with Option:
  none marks the panic.
-/

namespace Gophermon

/-- A geographic point of the external golang-geo library, as (lat, lng). -/
abbrev Point := ℝ × ℝ

/-- Embedding of api.Location: latitude, longitude, altitude, accuracy. -/
structure Location where
  lat : ℝ
  lon : ℝ
  alt : ℝ
  accuracy : ℝ

/-- Bearing constant NORTH = 0 from locations.go. -/
def NORTH : ℝ := 0

/-- Bearing constant EAST = 90 from locations.go. -/
def EAST : ℝ := 90

/-- Bearing constant SOUTH = 180 from locations.go. -/
def SOUTH : ℝ := 180

/-- Bearing constant WEST = 270 from locations.go. -/
def WEST : ℝ := 270

/-- Embedding of newLocation.  The external collaborator
geo.Point.PointAtDistanceAndBearing is passed as the oracle pab
(taking a point, a distance in km and a bearing).  The source divides
the distance in meters by 1000 before calling it. -/
noncomputable def newLocation (pab : Point → ℝ → ℝ → Point) (location : Location)
    (dist bearing : ℝ) : Location :=
  let point := pab (location.lat, location.lon) (dist / 1000) bearing
  { lat := point.1, lon := point.2, alt := location.alt,
    accuracy := location.accuracy }

/-- One inner loop of generateHoneyComb: `for i := 0; i < ring; i++`
moves the current location by the edge step and appends the new current
location after each step. -/
def walkEdge (move : Location → Location) :
    ℕ → Location × List Location → Location × List Location
  | 0, s => s
  | n + 1, s => walkEdge move n (move s.1, s.2 ++ [move s.1])

/-- The body of generateHoneyComb's outer loop for one value of `ring`:
one step east, then the six ring edges (top right, top, top left,
bottom left, bottom, bottom right), each of `ring` steps. -/
noncomputable def honeyRing (pab : Point → ℝ → ℝ → Point) (dx dy : ℝ) (ring : ℕ)
    (s : Location × List Location) : Location × List Location :=
  let s1 : Location × List Location := (newLocation pab s.1 dx EAST, s.2)
  let s2 := walkEdge (fun l => newLocation pab (newLocation pab l dy NORTH) (dx / 2) WEST) ring s1
  let s3 := walkEdge (fun l => newLocation pab l dx WEST) ring s2
  let s4 := walkEdge (fun l => newLocation pab (newLocation pab l (dx / 2) WEST) dy SOUTH) ring s3
  let s5 := walkEdge (fun l => newLocation pab (newLocation pab l dy SOUTH) (dx / 2) EAST) ring s4
  let s6 := walkEdge (fun l => newLocation pab l dx EAST) ring s5
  walkEdge (fun l => newLocation pab (newLocation pab l (dx / 2) EAST) dy NORTH) ring s6

/-- The `rings` variable of generateHoneyComb:
`rings := int(math.Ceil(radius / dx))` with `dx := math.Sqrt(3) * distance`.
For the non-negative quotients that arise from the positive inputs of the
spec this is the natural-number ceiling. -/
noncomputable def ringCount (radius distance : ℝ) : ℕ :=
  ⌈radius / (Real.sqrt 3 * distance)⌉₊

/-- Embedding of generateHoneyComb.  The outer loop
`for ring := 1; ring < rings; ring++` runs over ring indices
1, ..., rings - 1. -/
noncomputable def generateHoneyComb (pab : Point → ℝ → ℝ → Point)
    (center : Location) (radius distance : ℝ) : List Location :=
  let dx := Real.sqrt 3 * distance
  let dy := 3 * (distance / 2)
  let rings := ringCount radius distance
  ((List.range' 1 (rings - 1)).foldl
    (fun s ring => honeyRing pab dx dy ring s) (center, [])).2

/-- Embedding of the HoneyCombProvider struct.  The Go cursor
CurrentStep is an int, modelled as ℤ. -/
structure HoneyCombProvider where
  CenterLocation : Location
  Locations : List Location
  CurrentStep : ℤ
  Radius : ℝ

/-- Embedding of NewHoneyCombProvider.  Note that the source has no
error return: construction always succeeds. -/
noncomputable def NewHoneyCombProvider (pab : Point → ℝ → ℝ → Point)
    (center : Location) (radius distance : ℝ) : HoneyCombProvider :=
  { CenterLocation := center
    Radius := radius
    CurrentStep := -1
    Locations := generateHoneyComb pab center radius distance }

/-! Length lemmas for the honeycomb generator. -/

theorem walkEdge_snd_length (move : Location → Location) :
    ∀ (n : ℕ) (s : Location × List Location),
      ((walkEdge move n s).2).length = s.2.length + n := by
  intro n
  induction n with
  | zero => intro s; rfl
  | succ m ih =>
      intro s
      rw [walkEdge, ih]
      simp
      omega

theorem honeyRing_snd_length (pab : Point → ℝ → ℝ → Point) (dx dy : ℝ)
    (ring : ℕ) (s : Location × List Location) :
    ((honeyRing pab dx dy ring s).2).length = s.2.length + 6 * ring := by
  simp only [honeyRing, walkEdge_snd_length]
  omega

theorem honeyFold_snd_length (pab : Point → ℝ → ℝ → Point) (dx dy : ℝ) :
    ∀ (rs : List ℕ) (s : Location × List Location),
      ((rs.foldl (fun t ring => honeyRing pab dx dy ring t) s).2).length
        = s.2.length + 6 * rs.sum := by
  intro rs
  induction rs with
  | nil => intro s; simp
  | cons r rest ih =>
      intro s
      rw [List.foldl_cons, ih, honeyRing_snd_length]
      simp [List.sum_cons]
      ring

theorem range'_one_sum : ∀ k : ℕ, 2 * (List.range' 1 k).sum = k * (k + 1) := by
  intro k
  induction k with
  | zero => rfl
  | succ m ih =>
      rw [List.range'_concat, List.sum_append]
      simp only [List.sum_cons, List.sum_nil]
      have hr : (m + 1) * (m + 1 + 1) = m * (m + 1) + 2 * (m + 1) := by ring
      rw [hr]
      linarith [ih]

theorem sum_range_six_mul : ∀ n : ℕ, ∑ r in Finset.range n, 6 * r = 3 * (n - 1) * n := by
  intro n
  induction n with
  | zero => rfl
  | succ m ih =>
      rw [Finset.sum_range_succ, ih]
      cases m with
      | zero => rfl
      | succ p => simp only [Nat.add_sub_cancel]; ring

theorem generateHoneyComb_length (pab : Point → ℝ → ℝ → Point)
    (center : Location) (radius distance : ℝ) :
    (generateHoneyComb pab center radius distance).length
      = 3 * (ringCount radius distance - 1) * ringCount radius distance := by
  have h := honeyFold_snd_length pab (Real.sqrt 3 * distance) (3 * (distance / 2))
    (List.range' 1 (ringCount radius distance - 1)) (center, [])
  have hs := range'_one_sum (ringCount radius distance - 1)
  unfold generateHoneyComb
  rw [h]
  simp only [List.length_nil, Nat.zero_add]
  cases hr : ringCount radius distance with
  | zero => simp
  | succ m =>
      rw [hr] at hs
      simp only [Nat.succ_sub_one] at hs ⊢
      linarith [hs]

theorem generateHoneyComb_length_sum (pab : Point → ℝ → ℝ → Point)
    (center : Location) (radius distance : ℝ) :
    (generateHoneyComb pab center radius distance).length
      = ∑ r in Finset.range (ringCount radius distance), 6 * r := by
  rw [generateHoneyComb_length, sum_range_six_mul]

/-! Numeric facts about the ring count at the spec scenarios. -/

theorem sqrt3_gt : (1.7 : ℝ) < Real.sqrt 3 := by
  rw [show (1.7 : ℝ) = Real.sqrt (1.7 ^ 2) by
        rw [Real.sqrt_sq]; norm_num]
  apply Real.sqrt_lt_sqrt <;> norm_num

theorem sqrt3_lt : Real.sqrt 3 < (1.8 : ℝ) := by
  rw [show (1.8 : ℝ) = Real.sqrt (1.8 ^ 2) by
        rw [Real.sqrt_sq]; norm_num]
  apply Real.sqrt_lt_sqrt <;> norm_num

theorem ringCount_200_70 : ringCount 200 70 = 2 := by
  have h1 := sqrt3_gt
  have h2 := sqrt3_lt
  unfold ringCount
  rw [Nat.ceil_eq_iff (by norm_num : (2 : ℕ) ≠ 0)]
  constructor
  · push_cast
    rw [lt_div_iff (by nlinarith)]
    nlinarith
  · push_cast
    rw [div_le_iff (by nlinarith)]
    nlinarith

theorem ringCount_100_70 : ringCount 100 70 = 1 := by
  have h1 := sqrt3_gt
  unfold ringCount
  rw [Nat.ceil_eq_iff (by norm_num : (1 : ℕ) ≠ 0)]
  constructor
  · push_cast
    positivity
  · push_cast
    rw [div_le_iff (by nlinarith)]
    nlinarith

theorem generateHoneyComb_200_70_length (pab : Point → ℝ → ℝ → Point)
    (center : Location) :
    (generateHoneyComb pab center 200 70).length = 6 := by
  rw [generateHoneyComb_length, ringCount_200_70]

theorem generateHoneyComb_100_70_empty (pab : Point → ℝ → ℝ → Point)
    (center : Location) :
    generateHoneyComb pab center 100 70 = [] := by
  have h := generateHoneyComb_length pab center 100 70
  rw [ringCount_100_70] at h
  simpa using List.length_eq_zero.mp (by omega)

/-- Trivial instance of the external point-projection collaborator, used
for concrete scenarios (the counting claims hold for every projection). -/
def pab0 : Point → ℝ → ℝ → Point := fun p _ _ => p

/-- Concrete center location (0, 0) of the spec scenarios. -/
def center0 : Location := { lat := 0, lon := 0, alt := 0, accuracy := 0 }

theorem three_mul_pred_pos_iff (n : ℕ) : 0 < 3 * (n - 1) * n ↔ 2 ≤ n := by
  cases n with
  | zero => simp
  | succ m =>
      cases m with
      | zero => simp
      | succ p =>
          constructor
          · intro _; omega
          · intro _
            have h1 : 0 < 3 * (p + 1) := by omega
            have h2 : 0 < p + 2 := by omega
            have h3 := Nat.mul_pos h1 h2
            simp only [Nat.add_sub_cancel]
            exact h3

/-- C1: generateHoneyComb's ring count variable is ceil(radius / (√3 ·
spacing)); each executed ring index r (the outer loop runs r = 1, ...,
ringCount - 1) appends exactly 6·r coordinates; the total number of
coordinates is the sum of 6·r over r < ringCount; and in the concrete
scenario center = (0,0), radius = 200, spacing = 70 the ring count is 2
and exactly 6 points are produced. -/
theorem C1_honeycomb_ring_structure (pab : Point → ℝ → ℝ → Point)
    (center : Location) (radius distance : ℝ) :
    ringCount radius distance = ⌈radius / (Real.sqrt 3 * distance)⌉₊
    ∧ (∀ (ring : ℕ) (s : Location × List Location),
        ((honeyRing pab (Real.sqrt 3 * distance) (3 * (distance / 2)) ring s).2).length
          = s.2.length + 6 * ring)
    ∧ (generateHoneyComb pab center radius distance).length
        = ∑ r in Finset.range (ringCount radius distance), 6 * r
    ∧ ringCount 200 70 = 2
    ∧ (generateHoneyComb pab center0 200 70).length = 6 := by
  refine ⟨rfl, ?_, ?_, ?_, ?_⟩
  · intro ring s
    exact honeyRing_snd_length pab (Real.sqrt 3 * distance) (3 * (distance / 2)) ring s
  · exact generateHoneyComb_length_sum pab center radius distance
  · exact ringCount_200_70
  · exact generateHoneyComb_200_70_length pab center0

/-- C2 counterexample: with the positive inputs radius = 100 m and
spacing = 70 m, generateHoneyComb returns the empty sequence (the ring
count is 1, so the outer loop body never runs), and NewHoneyCombProvider
nevertheless constructs a provider — with an empty location list —
rather than failing. -/
theorem C2_counterexample :
    (0 : ℝ) < 100 ∧ (0 : ℝ) < 70
    ∧ generateHoneyComb pab0 center0 100 70 = []
    ∧ (NewHoneyCombProvider pab0 center0 100 70).Locations = [] := by
  refine ⟨by norm_num, by norm_num, generateHoneyComb_100_70_empty pab0 center0, ?_⟩
  show generateHoneyComb pab0 center0 100 70 = []
  exact generateHoneyComb_100_70_empty pab0 center0

/-- C2 amended: generateHoneyComb returns a non-empty sequence exactly
when the ring count ceil(radius / (√3 · spacing)) is at least 2 (for
positive radius up to √3 · spacing it is empty), and NewHoneyCombProvider
never fails: it always constructs a provider whose location list is
exactly the generateHoneyComb output, empty or not. -/
theorem C2_nonempty_iff_two_rings (pab : Point → ℝ → ℝ → Point)
    (center : Location) (radius distance : ℝ) :
    (generateHoneyComb pab center radius distance ≠ []
      ↔ 2 ≤ ringCount radius distance)
    ∧ (NewHoneyCombProvider pab center radius distance).Locations
        = generateHoneyComb pab center radius distance := by
  constructor
  · rw [← List.length_pos, generateHoneyComb_length]
    exact three_mul_pred_pos_iff (ringCount radius distance)
  · rfl

/-! Location providers: accuracy jitter, fixed provider, cursor-based
providers. -/

/-- The fixed accuracy choice list of setRandomAccuracy. -/
def choices : List ℝ := [5, 5, 5, 10, 10, 30, 50, 65]

/-- Embedding of setRandomAccuracy.  The external rand.Intn(len(choices))
draw is the oracle argument k : Fin 8 (the source's choices list has
length 8); the location's accuracy is overwritten with choices[k]. -/
def setRandomAccuracy (k : Fin 8) (location : Location) : Location :=
  { location with accuracy := choices.get (Fin.cast rfl k) }

/-- Embedding of DefaultLocationProvider: it contains only one
api.Location. -/
structure DefaultLocationProvider where
  StartLocation : Location

/-- Embedding of DefaultLocationProvider.NextLocation: it mutates the
accuracy of the start location in place (modelled by returning the
updated provider) and returns that location. -/
def DefaultLocationProvider.NextLocation (k : Fin 8)
    (d : DefaultLocationProvider) : DefaultLocationProvider × Location :=
  let l := setRandomAccuracy k d.StartLocation
  ({ StartLocation := l }, l)

/-- The sequence of locations emitted by a DefaultLocationProvider over
a sequence of calls, one rand draw per call. -/
def runDefaultCalls (d : DefaultLocationProvider) :
    List (Fin 8) → List Location
  | [] => []
  | k :: ks =>
      let r := d.NextLocation k
      r.2 :: runDefaultCalls r.1 ks

theorem setRandomAccuracy_twice (k j : Fin 8) (l : Location) :
    setRandomAccuracy k (setRandomAccuracy j l) = setRandomAccuracy k l := rfl

theorem setRandomAccuracy_mem_choices (k : Fin 8) (l : Location) :
    (setRandomAccuracy k l).accuracy ∈ choices := by
  exact List.get_mem choices (Fin.cast rfl k).1 (Fin.cast rfl k).2

/-- C8: across every sequence of calls, a Fixed provider's NextLocation
returns locations whose latitude and longitude are those of the
configured start location, and whose accuracy is resampled on each call
from the fixed discrete choice list {5,5,5,10,10,30,50,65}: the i-th
emitted location is exactly the start location with accuracy
choices[k_i], so every emitted accuracy is a member of the list. -/
theorem C8_fixed_provider_constant_latlon (d : DefaultLocationProvider)
    (ks : List (Fin 8)) :
    runDefaultCalls d ks = ks.map (fun k => setRandomAccuracy k d.StartLocation)
    ∧ (runDefaultCalls d ks).Forall (fun loc =>
        loc.lat = d.StartLocation.lat ∧ loc.lon = d.StartLocation.lon
          ∧ loc.accuracy ∈ choices) := by
  have hmap : ∀ (e : DefaultLocationProvider) (ks : List (Fin 8)),
      (∀ j : Fin 8, setRandomAccuracy j e.StartLocation
        = setRandomAccuracy j d.StartLocation) →
      runDefaultCalls e ks = ks.map (fun k => setRandomAccuracy k d.StartLocation) := by
    intro e ks
    induction ks generalizing e with
    | nil => intro _; rfl
    | cons k rest ih =>
        intro he
        rw [runDefaultCalls, List.map_cons]
        refine congrArg₂ _ (he k) ?_
        apply ih
        intro j
        exact (setRandomAccuracy_twice j k e.StartLocation).trans (he j)
  have h1 : runDefaultCalls d ks
      = ks.map (fun k => setRandomAccuracy k d.StartLocation) :=
    hmap d ks (fun _ => rfl)
  refine ⟨h1, ?_⟩
  rw [h1, List.forall_iff_forall_mem]
  intro loc hloc
  rcases List.mem_map.mp hloc with ⟨k, _, hk⟩
  subst hk
  exact ⟨rfl, rfl, setRandomAccuracy_mem_choices k d.StartLocation⟩

/-- Embedding of the PolygonProvider struct.  The polygon of the
external geo library is kept as its vertex list; the Go cursor
currentLocation is an int, modelled as ℤ. -/
structure PolygonProvider where
  Polygon : List Point
  Locations : List Location
  currentLocation : ℤ

/-- Embedding of PolygonProvider.NextLocation: increment the cursor,
wrap it to 0 once it reaches the length of the location list, jitter the
accuracy of the location at the cursor in place and return it.  The
indexing p.Locations[p.currentLocation] panics in Go when out of range;
the panic is modelled as none. -/
def PolygonProvider.NextLocation (k : Fin 8) (p : PolygonProvider) :
    Option (PolygonProvider × Location) :=
  let cur := p.currentLocation + 1
  let cur := if (p.Locations.length : ℤ) ≤ cur then 0 else cur
  if h : 0 ≤ cur ∧ cur.toNat < p.Locations.length then
    let loc := setRandomAccuracy k (p.Locations.get ⟨cur.toNat, h.2⟩)
    some ({ p with
              currentLocation := cur
              Locations := p.Locations.set cur.toNat loc }, loc)
  else none

/-- Embedding of HoneyCombProvider.NextLocation, identical to the
polygon variant up to the cursor field name. -/
def HoneyCombProvider.NextLocation (k : Fin 8) (h : HoneyCombProvider) :
    Option (HoneyCombProvider × Location) :=
  let cur := h.CurrentStep + 1
  let cur := if (h.Locations.length : ℤ) ≤ cur then 0 else cur
  if hb : 0 ≤ cur ∧ cur.toNat < h.Locations.length then
    let loc := setRandomAccuracy k (h.Locations.get ⟨cur.toNat, hb.2⟩)
    some ({ h with
              CurrentStep := cur
              Locations := h.Locations.set cur.toNat loc }, loc)
  else none

/-- Concrete rand draw used in concrete scenarios. -/
def k0 : Fin 8 := ⟨0, by norm_num⟩

/-- C7 counterexample: NewHoneyCombProvider with positive radius 100 m
and spacing 70 m constructs a provider with an empty location list, and
the very first NextLocation call on it indexes out of bounds (a panic in
Go, modelled as none), refuting that the indexing inside NextLocation
never fails. -/
theorem C7_counterexample :
    HoneyCombProvider.NextLocation k0 (NewHoneyCombProvider pab0 center0 100 70)
      = none := by
  have hL : generateHoneyComb pab0 center0 100 70 = [] :=
    generateHoneyComb_100_70_empty pab0 center0
  simp [HoneyCombProvider.NextLocation, NewHoneyCombProvider, hL]

/-- C7 amended: for the polygon and honeycomb provider variants, as long
as the location list is non-empty and the cursor is at least -1 (true of
the initial cursor -1 and preserved by every call), each NextLocation
call succeeds, advances the cursor by one — wrapping to 0 when it
reaches the sequence length — and leaves the cursor in bounds:
0 ≤ cursor < length.  (With an empty location list, which successful
construction permits, the indexing fails instead.) -/
theorem C7_cursor_wraparound (p : PolygonProvider) (hcv : HoneyCombProvider)
    (k : Fin 8) (hp : p.Locations ≠ []) (hpc : -1 ≤ p.currentLocation)
    (hh : hcv.Locations ≠ []) (hhc : -1 ≤ hcv.CurrentStep) :
    (∃ q loc, p.NextLocation k = some (q, loc)
      ∧ q.currentLocation
          = (if (p.Locations.length : ℤ) ≤ p.currentLocation + 1 then 0
             else p.currentLocation + 1)
      ∧ 0 ≤ q.currentLocation
      ∧ q.currentLocation < (q.Locations.length : ℤ)
      ∧ q.Locations.length = p.Locations.length)
    ∧ (∃ q loc, hcv.NextLocation k = some (q, loc)
      ∧ q.CurrentStep
          = (if (hcv.Locations.length : ℤ) ≤ hcv.CurrentStep + 1 then 0
             else hcv.CurrentStep + 1)
      ∧ 0 ≤ q.CurrentStep
      ∧ q.CurrentStep < (q.Locations.length : ℤ)
      ∧ q.Locations.length = hcv.Locations.length) := by
  constructor
  · have hlen : 0 < p.Locations.length := List.length_pos.mpr hp
    set cur : ℤ := if (p.Locations.length : ℤ) ≤ p.currentLocation + 1
        then 0 else p.currentLocation + 1 with hcurdef
    have hcur : 0 ≤ cur ∧ cur.toNat < p.Locations.length := by
      rw [hcurdef]
      split_ifs <;> constructor <;> omega
    refine ⟨_, _, dif_pos hcur, rfl, hcur.1, ?_, ?_⟩
    · show cur < (((p.Locations.set cur.toNat
          (setRandomAccuracy k (p.Locations.get ⟨cur.toNat, hcur.2⟩))).length : ℕ) : ℤ)
      rw [List.length_set]
      rcases hcur with ⟨h1, h2⟩
      omega
    · show (p.Locations.set cur.toNat
          (setRandomAccuracy k (p.Locations.get ⟨cur.toNat, hcur.2⟩))).length
          = p.Locations.length
      exact List.length_set p.Locations _ _
  · have hlen : 0 < hcv.Locations.length := List.length_pos.mpr hh
    set cur : ℤ := if (hcv.Locations.length : ℤ) ≤ hcv.CurrentStep + 1
        then 0 else hcv.CurrentStep + 1 with hcurdef
    have hcur : 0 ≤ cur ∧ cur.toNat < hcv.Locations.length := by
      rw [hcurdef]
      split_ifs <;> constructor <;> omega
    refine ⟨_, _, dif_pos hcur, rfl, hcur.1, ?_, ?_⟩
    · show cur < (((hcv.Locations.set cur.toNat
          (setRandomAccuracy k (hcv.Locations.get ⟨cur.toNat, hcur.2⟩))).length : ℕ) : ℤ)
      rw [List.length_set]
      rcases hcur with ⟨h1, h2⟩
      omega
    · show (hcv.Locations.set cur.toNat
          (setRandomAccuracy k (hcv.Locations.get ⟨cur.toNat, hcur.2⟩))).length
          = hcv.Locations.length
      exact List.length_set hcv.Locations _ _

/-- Concrete polygon provider used to witness the amended C7. -/
def polygonProvider0 : PolygonProvider :=
  { Polygon := [], Locations := [center0], currentLocation := -1 }

/-- Concrete honeycomb provider used to witness the amended C7. -/
def honeyCombProvider0 : HoneyCombProvider :=
  { CenterLocation := center0, Locations := [center0], CurrentStep := -1,
    Radius := 0 }

/-- C7 witness: the amended cursor invariant at a concrete pair of
providers, each holding one location with the initial cursor -1. -/
theorem C7_witness :
    (∃ q loc, polygonProvider0.NextLocation k0 = some (q, loc)
      ∧ q.currentLocation
          = (if (polygonProvider0.Locations.length : ℤ)
                ≤ polygonProvider0.currentLocation + 1 then 0
             else polygonProvider0.currentLocation + 1)
      ∧ 0 ≤ q.currentLocation
      ∧ q.currentLocation < (q.Locations.length : ℤ)
      ∧ q.Locations.length = polygonProvider0.Locations.length)
    ∧ (∃ q loc, honeyCombProvider0.NextLocation k0 = some (q, loc)
      ∧ q.CurrentStep
          = (if (honeyCombProvider0.Locations.length : ℤ)
                ≤ honeyCombProvider0.CurrentStep + 1 then 0
             else honeyCombProvider0.CurrentStep + 1)
      ∧ 0 ≤ q.CurrentStep
      ∧ q.CurrentStep < (q.Locations.length : ℤ)
      ∧ q.Locations.length = honeyCombProvider0.Locations.length) :=
  C7_cursor_wraparound polygonProvider0 honeyCombProvider0 k0
    (by simp [polygonProvider0]) (by norm_num [polygonProvider0])
    (by simp [honeyCombProvider0]) (by norm_num [honeyCombProvider0])

/-! Altitude enrichment (GetAltitude, SetCorrectAltitudes) and the
polygon provider. -/

/-- Errors flowing through the embedded code.  newRPCURL stands for the
sentinel api.ErrNewRPCURL; every other error value is `other` with a
code distinguishing it.  Go compares errors with ==, modelled by the
derived decidable equality. -/
inductive Err where
  | newRPCURL : Err
  | other : ℕ → Err
deriving DecidableEq, Repr

/-- The rateLimit constant of GetAltitude: at most 405 points per
elevation request. -/
def rateLimit : ℕ := 405

/-- The numRequests computation of GetAltitude:
`int(math.Ceil(float64(len(locations)) / float64(rateLimit)))`, the
ceiling division (exact in float64 for all realistic slice sizes). -/
def numRequests (n : ℕ) : ℕ := (n + rateLimit - 1) / rateLimit

/-- Writing a response into the elevations slice:
`elevations[j+(rateLimit*i)] = e.Elevation` for the j-th result of batch
i.  List.set ignores an out-of-range index where Go would panic; the
claims only use responses whose length matches the request. -/
def writeAt : List ℝ → ℕ → List ℝ → List ℝ
  | l, _, [] => l
  | l, off, v :: vs => writeAt (l.set off v) (off + 1) vs

/-- The i-th request slice `latLngPairs[i*rateLimit : upper]` of
GetAltitude, with `upper = min(i*rateLimit + rateLimit, len)`, expressed
on the location list (the latLngPairs strings are in 1-1 order-preserving
correspondence with the locations). -/
def requestBatch (locations : List Location) (i : ℕ) : List Location :=
  (locations.drop (rateLimit * i)).take
    (min (rateLimit * i + rateLimit) locations.length - rateLimit * i)

/-- All request slices of one GetAltitude run, in order. -/
def requestBatches (locations : List Location) : List (List Location) :=
  (List.range (numRequests locations.length)).map (requestBatch locations)

/-- The request loop of GetAltitude.  The external HTTP + JSON round
trip for batch i is the oracle `api i batch`, returning either the
elevations of the batch or an error (a failed http.Get, read or
unmarshal); on an error the partially filled elevations slice is
returned together with the error, exactly as in the source.  The fuel
argument counts the remaining loop iterations. -/
def getAltitudeLoop (api : ℕ → List Location → Except Err (List ℝ))
    (locations : List Location) : ℕ → ℕ → List ℝ → List ℝ × Option Err
  | _, 0, elevations => (elevations, none)
  | i, fuel + 1, elevations =>
      match api i (requestBatch locations i) with
      | Except.error e => (elevations, some e)
      | Except.ok resp =>
          getAltitudeLoop api locations (i + 1) fuel
            (writeAt elevations (rateLimit * i) resp)

/-- Embedding of GetAltitude: allocate a zero elevation per location,
perform ceil(n/405) batched requests, filling the slice in place. -/
def GetAltitude (api : ℕ → List Location → Except Err (List ℝ))
    (locations : List Location) : List ℝ × Option Err :=
  getAltitudeLoop api locations 0 (numRequests locations.length)
    (List.replicate locations.length 0)

/-- Embedding of SetCorrectAltitudes: on a GetAltitude error the error
is returned and no location is altered; on success every location's
altitude is set from the corresponding elevation. -/
def SetCorrectAltitudes (api : ℕ → List Location → Except Err (List ℝ))
    (locations : List Location) : Except Err (List Location) :=
  match GetAltitude api locations with
  | (_, some e) => Except.error e
  | (elevations, none) =>
      Except.ok (locations.zipWith (fun l e => { l with alt := e }) elevations)

/-- Oracle bundle for the external golang-geo library as used by
NewPolygonProvider: point projection, great-circle distance (km) and
polygon containment for a polygon given by its vertex list. -/
structure GeoOracle where
  pab : Point → ℝ → ℝ → Point
  gcd : Point → Point → ℝ
  contains : List Point → Point → Bool

/-- The polyPoints local of NewPolygonProvider: one geo point per
polygon vertex. -/
def polyPoints (polyLocations : List Location) : List Point :=
  polyLocations.map (fun p => (p.lat, p.lon))

/-- The start local of NewPolygonProvider: the first polygon point (Go
indexes polyPoints[0] and panics on an empty vertex list; headD stands
in for that access, and the claims use non-empty vertex lists). -/
def polyStart (polyLocations : List Location) : Point :=
  (polyPoints polyLocations).headD (0, 0)

/-- The radius local of NewPolygonProvider: the largest great-circle
distance from the start vertex to any polygon point, converted from km
to meters. -/
noncomputable def polyRadius (geo : GeoOracle)
    (polyLocations : List Location) : ℝ :=
  1000 * (polyPoints polyLocations).foldl
    (fun r p => if geo.gcd (polyStart polyLocations) p > r
        then geo.gcd (polyStart polyLocations) p else r) 0

/-- The final local of NewPolygonProvider: a honeycomb of spacing 70
around the start vertex covering the circumscribing radius, filtered by
polygon containment. -/
noncomputable def polyFinal (geo : GeoOracle)
    (polyLocations : List Location) : List Location :=
  (generateHoneyComb geo.pab
    { lat := (polyStart polyLocations).1, lon := (polyStart polyLocations).2,
      alt := 0, accuracy := 0 }
    (polyRadius geo polyLocations) 70).filter
    (fun h => geo.contains (polyPoints polyLocations) (h.lat, h.lon))

/-- Embedding of NewPolygonProvider: build the polygon, fill it with a
filtered honeycomb, then set altitudes.  On an enrichment error the Go
code returns the zero-value provider `&PolygonProvider{}` together with
the error. -/
noncomputable def NewPolygonProvider (geo : GeoOracle)
    (api : ℕ → List Location → Except Err (List ℝ))
    (polyLocations : List Location) : PolygonProvider × Option Err :=
  match SetCorrectAltitudes api (polyFinal geo polyLocations) with
  | Except.error e =>
      ({ Polygon := [], Locations := [], currentLocation := 0 }, some e)
  | Except.ok final2 =>
      ({ Polygon := polyPoints polyLocations, Locations := final2,
         currentLocation := -1 }, none)

/-! Lemmas about the elevation batching. -/

theorem requestBatch_eq_take (locations : List Location) (i : ℕ) :
    requestBatch locations i = (locations.drop (rateLimit * i)).take rateLimit := by
  unfold requestBatch
  apply List.take_eq_take.mpr
  simp only [List.length_drop, rateLimit]
  omega

theorem batches_join : ∀ (k : ℕ) (l : List Location),
    ((List.range k).map (fun i => (l.drop (rateLimit * i)).take rateLimit)).flatten
      = l.take (rateLimit * k) := by
  intro k
  induction k with
  | zero => intro l; simp
  | succ m ih =>
      intro l
      rw [List.range_succ, List.map_append, List.flatten_append, ih]
      simp only [List.map_cons, List.map_nil, List.flatten_cons, List.flatten_nil,
        List.append_nil]
      rw [show rateLimit * (m + 1) = rateLimit * m + rateLimit by ring,
        List.take_add]

theorem le_mul_numRequests (n : ℕ) : n ≤ rateLimit * numRequests n := by
  simp only [numRequests, rateLimit]
  omega

theorem mul_lt_of_lt_numRequests (i n : ℕ) (h : i < numRequests n) :
    rateLimit * i < n := by
  simp only [numRequests, rateLimit] at *
  omega

theorem requestBatches_join (locations : List Location) :
    (requestBatches locations).flatten = locations := by
  unfold requestBatches
  rw [List.map_congr_left (fun i _ => requestBatch_eq_take locations i),
    batches_join]
  exact List.take_of_length_le (le_mul_numRequests locations.length)

theorem requestBatches_length (locations : List Location) :
    (requestBatches locations).length = numRequests locations.length := by
  simp [requestBatches]

theorem requestBatches_sizes (locations : List Location) :
    ∀ b ∈ requestBatches locations, b.length ≤ rateLimit := by
  intro b hb
  rcases List.mem_map.mp hb with ⟨i, _, hib⟩
  subst hib
  rw [requestBatch_eq_take]
  simp only [List.length_take]
  exact min_le_left _ _

theorem set_append_length (v : ℝ) (b0 : ℝ) (bs : List ℝ) :
    ∀ a : List ℝ, (a ++ b0 :: bs).set a.length v = a ++ v :: bs := by
  intro a
  induction a with
  | nil => rfl
  | cons x xs ih => simp [List.set, ih]

theorem writeAt_append : ∀ (vs a b : List ℝ), vs.length ≤ b.length →
    writeAt (a ++ b) a.length vs = a ++ (vs ++ b.drop vs.length) := by
  intro vs
  induction vs with
  | nil => intro a b _; simp [writeAt]
  | cons v vs ih =>
      intro a b hlen
      cases b with
      | nil => simp at hlen
      | cons b0 bs =>
          rw [writeAt, set_append_length]
          have h1 : a ++ v :: bs = (a ++ [v]) ++ bs := by simp
          have h2 : a.length + 1 = (a ++ [v]).length := by simp
          rw [h1, h2, ih (a ++ [v]) bs (by simpa using hlen)]
          simp

theorem requestBatch_length (locations : List Location) (i : ℕ) :
    (requestBatch locations i).length
      = min rateLimit (locations.length - rateLimit * i) := by
  rw [requestBatch_eq_take]
  simp [List.length_take, List.length_drop]

theorem writeAt_append_off (vs a b : List ℝ) (off : ℕ) (hoff : off = a.length)
    (h : vs.length ≤ b.length) :
    writeAt (a ++ b) off vs = a ++ (vs ++ b.drop vs.length) := by
  subst hoff
  exact writeAt_append vs a b h

theorem elev_write_step (locations : List Location) (elev : Location → ℝ)
    (i : ℕ) (hi : i < numRequests locations.length) :
    writeAt ((locations.take (rateLimit * i)).map elev
        ++ List.replicate (locations.length - rateLimit * i) 0)
      (rateLimit * i) ((requestBatch locations i).map elev)
    = (locations.take (rateLimit * (i + 1))).map elev
      ++ List.replicate (locations.length - rateLimit * (i + 1)) 0 := by
  have hRi : rateLimit * i < locations.length := mul_lt_of_lt_numRequests _ _ hi
  have hA : ((locations.take (rateLimit * i)).map elev).length
      = rateLimit * i := by
    simp only [List.length_map, List.length_take]
    omega
  have hwrite := writeAt_append_off ((requestBatch locations i).map elev)
    ((locations.take (rateLimit * i)).map elev)
    (List.replicate (locations.length - rateLimit * i) 0)
    (rateLimit * i) hA.symm
    (by
      simp only [List.length_map, List.length_replicate, requestBatch_length,
        rateLimit]
      omega)
  rw [List.drop_replicate] at hwrite
  have hTake : (locations.take (rateLimit * (i + 1))).map elev
      = (locations.take (rateLimit * i)).map elev
        ++ (requestBatch locations i).map elev := by
    rw [requestBatch_eq_take, ← List.map_append, ← List.take_add,
      show rateLimit * i + rateLimit = rateLimit * (i + 1) by ring]
  have hRep : (locations.length - rateLimit * i)
        - ((requestBatch locations i).map elev).length
      = locations.length - rateLimit * (i + 1) := by
    simp only [List.length_map, requestBatch_length, rateLimit]
    omega
  rw [hwrite, hTake, List.append_assoc, hRep]

theorem getAltitudeLoop_ok (api : ℕ → List Location → Except Err (List ℝ))
    (locations : List Location) (elev : Location → ℝ) :
    ∀ (fuel i : ℕ), fuel + i = numRequests locations.length →
    (∀ j, i ≤ j → j < numRequests locations.length →
      api j (requestBatch locations j)
        = Except.ok ((requestBatch locations j).map elev)) →
    getAltitudeLoop api locations i fuel
      ((locations.take (rateLimit * i)).map elev
        ++ List.replicate (locations.length - rateLimit * i) 0)
    = (locations.map elev, none) := by
  intro fuel
  induction fuel with
  | zero =>
      intro i hfi _
      have hie : i = numRequests locations.length := by omega
      have hlen : locations.length ≤ rateLimit * i := by
        have h2 := le_mul_numRequests locations.length
        rw [← hie] at h2
        exact h2
      rw [getAltitudeLoop]
      rw [List.take_of_length_le hlen,
        show locations.length - rateLimit * i = 0 by omega]
      simp
  | succ fuel ih =>
      intro i hfi hapi
      have hi : i < numRequests locations.length := by omega
      rw [getAltitudeLoop, hapi i le_rfl hi]
      show getAltitudeLoop api locations (i + 1) fuel
          (writeAt ((locations.take (rateLimit * i)).map elev
            ++ List.replicate (locations.length - rateLimit * i) 0)
            (rateLimit * i) ((requestBatch locations i).map elev))
        = (locations.map elev, none)
      rw [elev_write_step locations elev i hi]
      exact ih (i + 1) (by omega) (fun j hj hjlt => hapi j (by omega) hjlt)

theorem getAltitudeLoop_fail (api : ℕ → List Location → Except Err (List ℝ))
    (locations : List Location) (elev : Location → ℝ) (e : Err) :
    ∀ (fuel i : ℕ), fuel + i = numRequests locations.length →
    ∀ j0, i ≤ j0 → j0 < numRequests locations.length →
    (∀ j, i ≤ j → j < j0 →
      api j (requestBatch locations j)
        = Except.ok ((requestBatch locations j).map elev)) →
    api j0 (requestBatch locations j0) = Except.error e →
    ∃ part, getAltitudeLoop api locations i fuel
        ((locations.take (rateLimit * i)).map elev
          ++ List.replicate (locations.length - rateLimit * i) 0)
      = (part, some e) := by
  intro fuel
  induction fuel with
  | zero =>
      intro i hfi j0 hij0 hj0 _ _
      exact (by omega : False).elim
  | succ fuel ih =>
      intro i hfi j0 hij0 hj0 hok herr
      by_cases hij : i = j0
      · subst hij
        rw [getAltitudeLoop, herr]
        exact ⟨_, rfl⟩
      · have hi : i < numRequests locations.length := by omega
        rw [getAltitudeLoop, hok i le_rfl (by omega)]
        show ∃ part, getAltitudeLoop api locations (i + 1) fuel
            (writeAt ((locations.take (rateLimit * i)).map elev
              ++ List.replicate (locations.length - rateLimit * i) 0)
              (rateLimit * i) ((requestBatch locations i).map elev))
          = (part, some e)
        rw [elev_write_step locations elev i hi]
        exact ih (i + 1) (by omega) j0 (by omega) hj0
          (fun j hj hjlt => hok j (by omega) hjlt) herr

/-- C9: GetAltitude splits its input of n coordinates into
ceil(n / 405) consecutive request slices of at most 405 points each
whose concatenation is exactly the input, consults the elevation API
only on those slices, and — when every request succeeds with one
elevation per requested coordinate — returns exactly one altitude per
input coordinate, in input order, with no error. -/
theorem C9_batched_enrichment (locations : List Location)
    (api : ℕ → List Location → Except Err (List ℝ)) (elev : Location → ℝ)
    (hapi : ∀ j, j < numRequests locations.length →
      api j (requestBatch locations j)
        = Except.ok ((requestBatch locations j).map elev)) :
    (requestBatches locations).length = numRequests locations.length
    ∧ (requestBatches locations).flatten = locations
    ∧ (∀ b ∈ requestBatches locations, b.length ≤ rateLimit)
    ∧ GetAltitude api locations = (locations.map elev, none) := by
  refine ⟨requestBatches_length locations, requestBatches_join locations,
    requestBatches_sizes locations, ?_⟩
  have h := getAltitudeLoop_ok api locations elev
    (numRequests locations.length) 0 (by omega)
    (fun j _ hjlt => hapi j hjlt)
  unfold GetAltitude
  simpa using h

/-- C9 witness: a concrete one-element coordinate list with an elevation
API that answers each batch pointwise. -/
theorem C9_witness :
    (requestBatches [center0]).length = numRequests 1
    ∧ (requestBatches [center0]).flatten = [center0]
    ∧ (∀ b ∈ requestBatches [center0], b.length ≤ rateLimit)
    ∧ GetAltitude (fun _ b => Except.ok (b.map (fun _ => (7 : ℝ)))) [center0]
        = ([center0].map (fun _ => (7 : ℝ)), none) := by
  have h := C9_batched_enrichment [center0]
    (fun _ b => Except.ok (b.map (fun _ => (7 : ℝ)))) (fun _ => (7 : ℝ))
    (fun j _ => rfl)
  simpa using h

/-- C6: if any elevation batch lookup fails during polygon-provider
construction — the batches before j0 succeed and batch j0 fails —
NewPolygonProvider returns that error together with the zero-value
provider, whose location list is empty: no partially altitude-enriched
location set is ever exposed to callers. -/
theorem C6_enrichment_failure (geo : GeoOracle)
    (api : ℕ → List Location → Except Err (List ℝ))
    (polyLocations : List Location) (elev : Location → ℝ) (e : Err) (j0 : ℕ)
    (hj0 : j0 < numRequests (polyFinal geo polyLocations).length)
    (hok : ∀ j, j < j0 →
      api j (requestBatch (polyFinal geo polyLocations) j)
        = Except.ok ((requestBatch (polyFinal geo polyLocations) j).map elev))
    (herr : api j0 (requestBatch (polyFinal geo polyLocations) j0)
        = Except.error e) :
    NewPolygonProvider geo api polyLocations
      = ({ Polygon := [], Locations := [], currentLocation := 0 }, some e) := by
  have hfail : ∃ part, GetAltitude api (polyFinal geo polyLocations)
      = (part, some e) := by
    have h := getAltitudeLoop_fail api (polyFinal geo polyLocations) elev e
      (numRequests (polyFinal geo polyLocations).length) 0 (by omega) j0
      (by omega) hj0 (fun j _ hj => hok j hj) herr
    unfold GetAltitude
    simpa using h
  rcases hfail with ⟨part, hga⟩
  unfold NewPolygonProvider SetCorrectAltitudes
  rw [hga]

/-- Concrete geo oracle for the polygon-provider scenarios: identity
projection, constant great-circle distance 0.2 km, a polygon containing
every point. -/
noncomputable def geo0 : GeoOracle :=
  { pab := pab0, gcd := fun _ _ => 0.2, contains := fun _ _ => true }

/-- Concrete always-failing elevation API. -/
def api0 : ℕ → List Location → Except Err (List ℝ) :=
  fun _ _ => Except.error (Err.other 7)

theorem polyRadius_geo0 : polyRadius geo0 [center0] = 200 := by
  unfold polyRadius polyPoints polyStart
  simp only [List.map_cons, List.map_nil, List.headD, List.foldl_cons,
    List.foldl_nil]
  show 1000 * (if (0.2 : ℝ) > 0 then (0.2 : ℝ) else 0) = 200
  rw [if_pos (by norm_num : (0.2 : ℝ) > 0)]
  norm_num

theorem polyFinal_geo0 : polyFinal geo0 [center0]
    = generateHoneyComb pab0 center0 200 70 := by
  unfold polyFinal
  rw [polyRadius_geo0]
  show (generateHoneyComb pab0 center0 200 70).filter (fun _ => true)
      = generateHoneyComb pab0 center0 200 70
  exact List.filter_true _

/-- C6 witness: the failing construction at a concrete one-vertex
polygon whose honeycomb fill is non-empty (6 points, hence one failing
elevation batch), with the always-failing elevation API. -/
theorem C6_witness :
    NewPolygonProvider geo0 api0 [center0]
      = ({ Polygon := [], Locations := [], currentLocation := 0 },
          some (Err.other 7)) := by
  have hlen6 : (polyFinal geo0 [center0]).length = 6 := by
    rw [polyFinal_geo0]
    exact generateHoneyComb_200_70_length pab0 center0
  exact C6_enrichment_failure geo0 api0 [center0] (fun _ => 0) (Err.other 7) 0
    (by rw [hlen6]; norm_num [numRequests, rateLimit])
    (fun j hj => absurd hj (Nat.not_lt_zero j)) rfl

/-! The Hunt worker loop of trainer.go, modelled as a trace-producing
function over one iteration of the steady loop.  The external world
(session expiry, login outcomes, the locations channel, GetPlayerMap
outcomes, AddScannedLocation outcomes) is an oracle; the trace records
the externally visible actions in order. -/

/-- Observable actions of one Hunt loop iteration. -/
inductive Event where
  | permit : Event
  | loginAttempt : Bool → Event
  | backoff : ℕ → Event
  | mapCall : Event
  | publish : Event
  | recordLoc : Bool → Event
  | logError : Event
  | moveTo : Event
  | sleepScan : Event
  | abandon : Event
deriving DecidableEq, Repr

/-- Oracle for one iteration of the Hunt loop: whether the session is
expired at the top of the loop, the outcome of the i-th login attempt,
whether a coordinate arrives from the locations channel within the
30-second select timeout, the outcome of the n-th GetPlayerMap call of
the iteration (none is success) and of the AddScannedLocation store
call following the n-th successful map call. -/
structure HuntOracle where
  sessionExpired : Bool
  loginOk : ℕ → Bool
  locationArrives : Bool
  callResult : ℕ → Option Err
  dbResult : ℕ → Option Err

/-- The re-login loop `for i := 0; i < 5; i++`: take a tick (rate
permit), attempt a login; on failure sleep i*10 and continue, on
success break.  Returns the event trace and whether some attempt
succeeded.  The fuel mirrors the remaining loop iterations. -/
def loginAttempts (ok : ℕ → Bool) : ℕ → ℕ → List Event × Bool
  | _, 0 => ([], false)
  | i, fuel + 1 =>
      if ok i then ([Event.permit, Event.loginAttempt true], true)
      else
        let rest := loginAttempts ok (i + 1) fuel
        (Event.permit :: Event.loginAttempt false :: Event.backoff (i * 10)
          :: rest.1, rest.2)

/-- The trace of k failed login attempts: a permit, a failed attempt and
an i*10 backoff, for i = 0, ..., k-1. -/
def failTrace (k : ℕ) : List Event :=
  ((List.range k).map
    (fun i => [Event.permit, Event.loginAttempt false, Event.backoff (i * 10)])).flatten

/-- The `f` helper of Hunt for its n-th invocation in one iteration:
call GetPlayerMap; on success push the response to the results channel,
then record the scanned location, returning the store's error if it
fails; on a call error return that error. -/
def scanAttempt (o : HuntOracle) (n : ℕ) : List Event × Option Err :=
  match o.callResult n with
  | none =>
      match o.dbResult n with
      | none => ([Event.mapCall, Event.publish, Event.recordLoc true], none)
      | some e => ([Event.mapCall, Event.publish, Event.recordLoc false], some e)
  | some e => ([Event.mapCall], some e)

/-- The login-status check at the top of the Hunt loop: when the session
is expired, run up to 5 re-login attempts; if the session is still
expired afterwards (no attempt succeeded), abandon the hunt.  The
second component is true when the hunt is abandoned.  (A successful
Login installs a fresh, unexpired session; a failed one leaves the
expired session in place.) -/
def loginPhase (o : HuntOracle) : List Event × Bool :=
  if o.sessionExpired then
    let la := loginAttempts o.loginOk 0 5
    if la.2 then (la.1, false) else (la.1 ++ [Event.abandon], true)
  else ([], false)

/-- One iteration of the steady Hunt loop: the login-status check, one
rate permit, the 30-second wait for a coordinate (abandoning on
timeout), MoveTo, the map-objects call with a single permit-gated retry
when the error equals api.ErrNewRPCURL, logging of a final error, and
the inter-scan sleep.  Returns the iteration's trace and whether the
worker terminated (abandoned). -/
def huntIteration (o : HuntOracle) : List Event × Bool :=
  let lp := loginPhase o
  if lp.2 then (lp.1, true)
  else
    let t1 := lp.1 ++ [Event.permit]
    if o.locationArrives then
      let t2 := t1 ++ [Event.moveTo]
      let s1 := scanAttempt o 0
      let r :=
        if s1.2 = some Err.newRPCURL then
          let s2 := scanAttempt o 1
          (t2 ++ s1.1 ++ [Event.permit] ++ s2.1, s2.2)
        else (t2 ++ s1.1, s1.2)
      match r.2 with
      | some _ => (r.1 ++ [Event.logError, Event.sleepScan], false)
      | none => (r.1 ++ [Event.sleepScan], false)
    else (t1 ++ [Event.abandon], true)

theorem loginAttempts_allFail (ok : ℕ → Bool) :
    ∀ (fuel i : ℕ), (∀ j, j < fuel → ok (i + j) = false) →
    loginAttempts ok i fuel
      = (((List.range fuel).map (fun j =>
          [Event.permit, Event.loginAttempt false, Event.backoff ((i + j) * 10)])).flatten,
        false) := by
  intro fuel
  induction fuel with
  | zero => intro i _; rfl
  | succ m ih =>
      intro i h
      have h0 : ok i = false := by simpa using h 0 (by omega)
      rw [loginAttempts, h0]
      simp only [Bool.false_eq_true, if_false]
      rw [ih (i + 1) (fun j hj => by
        have h2 := h (j + 1) (by omega)
        rwa [show i + (j + 1) = i + 1 + j by omega] at h2)]
      have hcomp : ((fun j =>
            [Event.permit, Event.loginAttempt false, Event.backoff ((i + j) * 10)])
            ∘ Nat.succ)
          = (fun j =>
            [Event.permit, Event.loginAttempt false, Event.backoff ((i + 1 + j) * 10)]) := by
        funext j
        simp only [Function.comp]
        rw [show i + Nat.succ j = i + 1 + j by omega]
      rw [List.range_succ_eq_map, List.map_cons, List.map_map, hcomp,
        List.flatten_cons]
      simp

theorem loginAttempts_firstSuccess (ok : ℕ → Bool) :
    ∀ (m fuel i : ℕ), m < fuel →
    (∀ j, j < m → ok (i + j) = false) → ok (i + m) = true →
    loginAttempts ok i fuel
      = (((List.range m).map (fun j =>
          [Event.permit, Event.loginAttempt false, Event.backoff ((i + j) * 10)])).flatten
          ++ [Event.permit, Event.loginAttempt true],
        true) := by
  intro m
  induction m with
  | zero =>
      intro fuel i hm _ hsucc
      cases fuel with
      | zero => omega
      | succ f =>
          rw [loginAttempts, show ok i = true by simpa using hsucc]
          simp
  | succ m ih =>
      intro fuel i hm hfail hsucc
      cases fuel with
      | zero => omega
      | succ f =>
          have h0 : ok i = false := by simpa using hfail 0 (by omega)
          rw [loginAttempts, h0]
          simp only [Bool.false_eq_true, if_false]
          rw [ih f (i + 1) (by omega)
            (fun j hj => by
              have h2 := hfail (j + 1) (by omega)
              rwa [show i + (j + 1) = i + 1 + j by omega] at h2)
            (by
              have h2 := hsucc
              rwa [show i + (m + 1) = i + 1 + m by omega] at h2)]
          have hcomp : ((fun j =>
                [Event.permit, Event.loginAttempt false, Event.backoff ((i + j) * 10)])
                ∘ Nat.succ)
              = (fun j =>
                [Event.permit, Event.loginAttempt false,
                  Event.backoff ((i + 1 + j) * 10)]) := by
            funext j
            simp only [Function.comp]
            rw [show i + Nat.succ j = i + 1 + j by omega]
          rw [List.range_succ_eq_map, List.map_cons, List.map_map, hcomp,
            List.flatten_cons]
          simp

/-- C3: whenever the session is expired at the top of the steady loop,
the worker makes at most 5 re-login attempts, acquiring one rate permit
before each attempt and backing off i·10 time units after the i-th
failed attempt (0, 10, 20, 30, 40); if the first k < 5 attempts fail and
attempt k succeeds, exactly k+1 attempts are made and the retrying
stops; if all 5 attempts fail the iteration's whole trace is those five
permit/attempt/backoff triples followed by abandonment, the worker
terminates, and no map call (remote scan) is ever issued. -/
theorem C3_login_retries (o : HuntOracle) (k : ℕ) (hk : k ≤ 5)
    (hexp : o.sessionExpired = true)
    (hfail : ∀ i, i < k → o.loginOk i = false)
    (hsucc : k < 5 → o.loginOk k = true) :
    (k = 5 → huntIteration o = (failTrace 5 ++ [Event.abandon], true)
      ∧ Event.mapCall ∉ (huntIteration o).1)
    ∧ (k < 5 → loginAttempts o.loginOk 0 5
        = (failTrace k ++ [Event.permit, Event.loginAttempt true], true)) := by
  constructor
  · intro hk5
    subst hk5
    have hla : loginAttempts o.loginOk 0 5 = (failTrace 5, false) := by
      rw [loginAttempts_allFail o.loginOk 5 0
        (fun j hj => by simpa using hfail j hj)]
      unfold failTrace
      simp
    have hhunt : huntIteration o = (failTrace 5 ++ [Event.abandon], true) := by
      simp [huntIteration, loginPhase, hexp, hla]
    exact ⟨hhunt, by rw [hhunt]; decide⟩
  · intro hk5
    rw [loginAttempts_firstSuccess o.loginOk k 5 0 hk5
      (fun j hj => by simpa using hfail j hj) (by simpa using hsucc hk5)]
    unfold failTrace
    simp

/-- Concrete oracle with an expired session and persistently failing
logins. -/
def oracle3 : HuntOracle :=
  { sessionExpired := true, loginOk := fun _ => false, locationArrives := true,
    callResult := fun _ => none, dbResult := fun _ => none }

/-- C3 witness: with all five login attempts failing, the iteration is
exactly the five permit/attempt/backoff triples plus abandonment, with
no map call. -/
theorem C3_witness :
    huntIteration oracle3 = (failTrace 5 ++ [Event.abandon], true)
    ∧ Event.mapCall ∉ (huntIteration oracle3).1 :=
  (C3_login_retries oracle3 5 le_rfl rfl (fun _ _ => rfl)
    (fun h => absurd h (by norm_num))).1 rfl

/-- C5: in an iteration whose session is valid, the worker takes one
permit and then waits on the locations channel; when no coordinate
arrives within the 30-second timeout it abandons immediately — the
iteration trace is exactly a permit followed by abandon, the worker
terminates, and no scan call is issued. -/
theorem C5_timeout_abandons (o : HuntOracle) (hexp : o.sessionExpired = false)
    (hloc : o.locationArrives = false) :
    huntIteration o = ([Event.permit, Event.abandon], true)
    ∧ Event.mapCall ∉ (huntIteration o).1 := by
  have h : huntIteration o = ([Event.permit, Event.abandon], true) := by
    simp [huntIteration, loginPhase, hexp, hloc]
  exact ⟨h, by rw [h]; decide⟩

/-- Concrete oracle with a valid session and a locations channel that
never delivers. -/
def oracle5 : HuntOracle :=
  { sessionExpired := false, loginOk := fun _ => false,
    locationArrives := false, callResult := fun _ => none,
    dbResult := fun _ => none }

/-- C5 witness: the timeout scenario at a concrete oracle. -/
theorem C5_witness :
    huntIteration oracle5 = ([Event.permit, Event.abandon], true)
    ∧ Event.mapCall ∉ (huntIteration oracle5).1 :=
  C5_timeout_abandons oracle5 rfl rfl

/-- C4: within one scan iteration with a valid session and a received
coordinate, if the first map-objects call fails with the RPC-relocated
sentinel the worker acquires exactly one more rate permit and retries
exactly once — two map calls and two permits in total, never a third
call regardless of the retry's outcome; on any other call error there is
no retry (one call, one permit), the error is logged, no result is
published, and the worker continues (does not abandon); likewise a
failing retry is logged, publishes nothing, and the worker continues. -/
theorem C4_rpc_relocated_retry (o : HuntOracle) (c : Err)
    (hexp : o.sessionExpired = false) (hloc : o.locationArrives = true)
    (hc : o.callResult 0 = some c) :
    (huntIteration o).2 = false
    ∧ (huntIteration o).1.count Event.mapCall
        = (if c = Err.newRPCURL then 2 else 1)
    ∧ (huntIteration o).1.count Event.permit
        = (if c = Err.newRPCURL then 2 else 1)
    ∧ (c ≠ Err.newRPCURL →
        Event.logError ∈ (huntIteration o).1
        ∧ Event.publish ∉ (huntIteration o).1)
    ∧ (c = Err.newRPCURL → ∀ e2, o.callResult 1 = some e2 →
        Event.logError ∈ (huntIteration o).1
        ∧ Event.publish ∉ (huntIteration o).1) := by
  by_cases hcn : c = Err.newRPCURL
  · subst hcn
    rcases h1 : o.callResult 1 with _ | e2
    · rcases h2 : o.dbResult 1 with _ | e3
      · have hh : huntIteration o
            = ([Event.permit, Event.moveTo, Event.mapCall, Event.permit,
                Event.mapCall, Event.publish, Event.recordLoc true,
                Event.sleepScan], false) := by
          simp [huntIteration, loginPhase, hexp, hloc, scanAttempt, hc, h1, h2]
        refine ⟨by rw [hh], by rw [hh]; decide, by rw [hh]; decide,
          fun hne => absurd rfl hne, fun _ e2 he2 => by simp [h1] at he2⟩
      · have hh : huntIteration o
            = ([Event.permit, Event.moveTo, Event.mapCall, Event.permit,
                Event.mapCall, Event.publish, Event.recordLoc false,
                Event.logError, Event.sleepScan], false) := by
          simp [huntIteration, loginPhase, hexp, hloc, scanAttempt, hc, h1, h2]
        refine ⟨by rw [hh], by rw [hh]; decide, by rw [hh]; decide,
          fun hne => absurd rfl hne, fun _ e2 he2 => by simp [h1] at he2⟩
    · have hh : huntIteration o
          = ([Event.permit, Event.moveTo, Event.mapCall, Event.permit,
              Event.mapCall, Event.logError, Event.sleepScan], false) := by
        simp [huntIteration, loginPhase, hexp, hloc, scanAttempt, hc, h1]
      refine ⟨by rw [hh], by rw [hh]; decide, by rw [hh]; decide,
        fun hne => absurd rfl hne,
        fun _ e2 _ => by rw [hh]; exact ⟨by decide, by decide⟩⟩
  · have hh : huntIteration o
        = ([Event.permit, Event.moveTo, Event.mapCall, Event.logError,
            Event.sleepScan], false) := by
      simp [huntIteration, loginPhase, hexp, hloc, scanAttempt, hc, hcn]
    refine ⟨by rw [hh], ?_, ?_, ?_, fun hcc => absurd hcc hcn⟩
    · rw [hh, if_neg hcn]; decide
    · rw [hh, if_neg hcn]; decide
    · intro _
      rw [hh]
      exact ⟨by decide, by decide⟩

/-- Concrete oracle whose first map call fails with the RPC-relocated
sentinel and whose retry succeeds. -/
def oracle4 : HuntOracle :=
  { sessionExpired := false, loginOk := fun _ => false, locationArrives := true,
    callResult := fun n => if n = 0 then some Err.newRPCURL else none,
    dbResult := fun _ => none }

/-- C4 witness: the relocated-retry behaviour at a concrete oracle. -/
theorem C4_witness :
    (huntIteration oracle4).2 = false
    ∧ (huntIteration oracle4).1.count Event.mapCall
        = (if Err.newRPCURL = Err.newRPCURL then 2 else 1)
    ∧ (huntIteration oracle4).1.count Event.permit
        = (if Err.newRPCURL = Err.newRPCURL then 2 else 1)
    ∧ (Err.newRPCURL ≠ Err.newRPCURL →
        Event.logError ∈ (huntIteration oracle4).1
        ∧ Event.publish ∉ (huntIteration oracle4).1)
    ∧ (Err.newRPCURL = Err.newRPCURL → ∀ e2, oracle4.callResult 1 = some e2 →
        Event.logError ∈ (huntIteration oracle4).1
        ∧ Event.publish ∉ (huntIteration oracle4).1) :=
  C4_rpc_relocated_retry oracle4 Err.newRPCURL rfl rfl rfl

/-- C10: when the map-objects call succeeds but recording the scanned
location in the store fails, the response has already been published to
the results queue — the iteration's trace begins with permit, moveTo,
mapCall, publish and the failed record, in that order — and the store's
error is then handled exactly like a call error: it is compared against
the RPC-relocated sentinel (triggering the permit-gated single retry if
it equals it) and otherwise merely logged, the worker continuing in both
cases. -/
theorem C10_store_failure_after_publish (o : HuntOracle) (e : Err)
    (hexp : o.sessionExpired = false) (hloc : o.locationArrives = true)
    (hc : o.callResult 0 = none) (hd : o.dbResult 0 = some e) :
    (∃ rest, (huntIteration o).1
        = [Event.permit, Event.moveTo, Event.mapCall, Event.publish,
           Event.recordLoc false] ++ rest)
    ∧ (huntIteration o).2 = false
    ∧ (e = Err.newRPCURL → (huntIteration o).1.count Event.mapCall = 2
        ∧ (huntIteration o).1.count Event.permit = 2)
    ∧ (e ≠ Err.newRPCURL → (huntIteration o).1.count Event.mapCall = 1
        ∧ Event.logError ∈ (huntIteration o).1) := by
  by_cases hen : e = Err.newRPCURL
  · subst hen
    rcases h1 : o.callResult 1 with _ | e2
    · rcases h2 : o.dbResult 1 with _ | e3
      · have hh : huntIteration o
            = ([Event.permit, Event.moveTo, Event.mapCall, Event.publish,
                Event.recordLoc false, Event.permit, Event.mapCall,
                Event.publish, Event.recordLoc true, Event.sleepScan],
              false) := by
          simp [huntIteration, loginPhase, hexp, hloc, scanAttempt, hc, hd, h1, h2]
        exact ⟨⟨[Event.permit, Event.mapCall, Event.publish,
            Event.recordLoc true, Event.sleepScan], by rw [hh]; rfl⟩,
          by rw [hh], fun _ => by rw [hh]; exact ⟨by decide, by decide⟩,
          fun hne => absurd rfl hne⟩
      · have hh : huntIteration o
            = ([Event.permit, Event.moveTo, Event.mapCall, Event.publish,
                Event.recordLoc false, Event.permit, Event.mapCall,
                Event.publish, Event.recordLoc false, Event.logError,
                Event.sleepScan], false) := by
          simp [huntIteration, loginPhase, hexp, hloc, scanAttempt, hc, hd, h1, h2]
        exact ⟨⟨[Event.permit, Event.mapCall, Event.publish,
            Event.recordLoc false, Event.logError, Event.sleepScan],
            by rw [hh]; rfl⟩,
          by rw [hh], fun _ => by rw [hh]; exact ⟨by decide, by decide⟩,
          fun hne => absurd rfl hne⟩
    · have hh : huntIteration o
          = ([Event.permit, Event.moveTo, Event.mapCall, Event.publish,
              Event.recordLoc false, Event.permit, Event.mapCall,
              Event.logError, Event.sleepScan], false) := by
        simp [huntIteration, loginPhase, hexp, hloc, scanAttempt, hc, hd, h1]
      exact ⟨⟨[Event.permit, Event.mapCall, Event.logError,
          Event.sleepScan], by rw [hh]; rfl⟩,
        by rw [hh], fun _ => by rw [hh]; exact ⟨by decide, by decide⟩,
        fun hne => absurd rfl hne⟩
  · have hh : huntIteration o
        = ([Event.permit, Event.moveTo, Event.mapCall, Event.publish,
            Event.recordLoc false, Event.logError, Event.sleepScan],
          false) := by
      simp [huntIteration, loginPhase, hexp, hloc, scanAttempt, hc, hd, hen]
    exact ⟨⟨[Event.logError, Event.sleepScan], by rw [hh]; rfl⟩,
      by rw [hh], fun hee => absurd hee hen,
      fun _ => by rw [hh]; exact ⟨by decide, by decide⟩⟩

/-- Concrete oracle whose map call succeeds but whose store write
fails with an ordinary error. -/
def oracle10 : HuntOracle :=
  { sessionExpired := false, loginOk := fun _ => false, locationArrives := true,
    callResult := fun _ => none,
    dbResult := fun n => if n = 0 then some (Err.other 3) else none }

/-- C10 witness: the publish-then-store-failure behaviour at a concrete
oracle. -/
theorem C10_witness :
    (∃ rest, (huntIteration oracle10).1
        = [Event.permit, Event.moveTo, Event.mapCall, Event.publish,
           Event.recordLoc false] ++ rest)
    ∧ (huntIteration oracle10).2 = false
    ∧ (Err.other 3 = Err.newRPCURL →
        (huntIteration oracle10).1.count Event.mapCall = 2
        ∧ (huntIteration oracle10).1.count Event.permit = 2)
    ∧ (Err.other 3 ≠ Err.newRPCURL →
        (huntIteration oracle10).1.count Event.mapCall = 1
        ∧ Event.logError ∈ (huntIteration oracle10).1) :=
  C10_store_failure_after_publish oracle10 (Err.other 3) rfl rfl rfl rfl

end Gophermon
